import Mathlib

/-!
Formal model of the ShieldClaw monitor core (src/pro/monitor/monitor.py and
src/pro/monitor/drift_detector.py): JSON documents, the structural diff,
the SQLite-backed store, drift scanning, drift approval, injection scanning
and the security audit.  Python dictionaries are modelled as association
lists in insertion order (a dictionary produced by json.load never holds
duplicate keys); the SHA-256 fingerprint is modelled as the identity on
byte content, which preserves every equality test the code performs.
-/

namespace ShieldClaw

/-- JSON values as produced by json.load.  Objects keep the insertion
order of their fields; numbers are modelled as integers. -/
inductive Json where
  | null : Json
  | bool : Bool → Json
  | num : Int → Json
  | str : String → Json
  | arr : List Json → Json
  | obj : List (String × Json) → Json

/-- Dictionary indexing and the `in` test of Python: first binding of a key
in an association list. -/
def lookupJ (k : String) : List (String × Json) → Option Json
  | [] => none
  | (k', v) :: rest => if k' = k then some v else lookupJ k rest

def sizeOf_lookupJ : ∀ (ys : List (String × Json)) (k : String) (w : Json),
    lookupJ k ys = some w → sizeOf w < sizeOf ys := by
  intro ys
  induction ys with
  | nil => intro k w h; simp [lookupJ] at h
  | cons p rest ih =>
    intro k w h
    obtain ⟨k', v⟩ := p
    by_cases hk : k' = k
    · simp [lookupJ, hk] at h
      subst h
      simp
      omega
    · simp [lookupJ, hk] at h
      have := ih k w h
      simp
      omega

def sizeOf_mem_pair : ∀ (ys : List (String × Json)) (k : String) (v : Json),
    (k, v) ∈ ys → sizeOf v < sizeOf ys := by
  intro ys
  induction ys with
  | nil => intro k v h; simp at h
  | cons p rest ih =>
    intro k v h
    rcases List.mem_cons.mp h with h1 | h2
    · subst h1
      simp
      omega
    · have := ih k v h2
      simp
      omega

mutual
/-- Python equality (the `!=` test of `_compare_dicts`) on JSON values:
dictionaries are equal when each side contains every key of the other with
equal values, lists are equal pointwise, and a Boolean equals the integer
it converts to (True == 1, False == 0 in Python). -/
def jeq : Json → Json → Bool
  | .null, .null => true
  | .bool a, .bool b => a == b
  | .bool a, .num n => (if a then (1 : Int) else 0) == n
  | .num n, .bool a => n == (if a then (1 : Int) else 0)
  | .num a, .num b => a == b
  | .str a, .str b => a == b
  | .arr a, .arr b => jeqList a b
  | .obj a, .obj b => objLe a b && objLe b a
  | _, _ => false
termination_by a b => sizeOf a + sizeOf b

/-- Pointwise Python equality of two JSON lists. -/
def jeqList : List Json → List Json → Bool
  | [], [] => true
  | a :: as, b :: bs => jeq a b && jeqList as bs
  | _, _ => false
termination_by a b => sizeOf a + sizeOf b

/-- One inclusion of Python dictionary equality: every key of the first
list occurs in the second with an equal value. -/
def objLe : List (String × Json) → List (String × Json) → Bool
  | [], _ => true
  | (k, v) :: rest, ys =>
    (match h : lookupJ k ys with
     | some w => jeq v w
     | none => false) && objLe rest ys
termination_by a b => sizeOf a + sizeOf b
decreasing_by
  · have := sizeOf_lookupJ ys k w h
    simp
    omega
  · simp
end

/-- A field-level difference entry as appended by `_compare_dicts`. -/
inductive Change where
  | added (path : String) (new_value : Json)
  | removed (path : String) (old_value : Json)
  | modified (path : String) (old_value new_value : Json)

/-- The dotted path built while `_compare_dicts` descends. -/
def joinPath (path key : String) : String :=
  if path = "" then key else path ++ "." ++ key

/-- The second loop of `_compare_dicts`: keys present in current but absent
from baseline are reported as added. -/
def compareLoop2 (baseline : List (String × Json)) :
    List (String × Json) → String → List Change
  | [], _ => []
  | (k, w) :: rest, path =>
    (if (lookupJ k baseline).isNone then [Change.added (joinPath path k) w] else [])
      ++ compareLoop2 baseline rest path

mutual
/-- The body of the first loop of `_compare_dicts` for one key of the
baseline: removed when the key is absent from current, recursion when both
values are dictionaries, modified when the values differ. -/
def entryFor (current : List (String × Json)) (path k : String) (v : Json) :
    List Change :=
  match h : lookupJ k current with
  | none => [Change.removed (joinPath path k) v]
  | some w =>
    match v, w with
    | .obj bv, .obj cv => compareDicts bv cv (joinPath path k)
    | _, _ => if jeq v w then [] else [Change.modified (joinPath path k) v w]
termination_by sizeOf v + sizeOf current
decreasing_by
  have := sizeOf_lookupJ current k (.obj cv) h
  simp at this ⊢
  omega

/-- The first loop of `_compare_dicts`, over the keys of the baseline. -/
def compareLoop1 : List (String × Json) → List (String × Json) → String → List Change
  | [], _, _ => []
  | (k, v) :: rest, current, path =>
    entryFor current path k v ++ compareLoop1 rest current path
termination_by b c _ => sizeOf b + sizeOf c
decreasing_by
  · simp
    omega
  · simp

/-- Recursive structural comparison of two dictionaries
(`DriftDetector._compare_dicts`). -/
def compareDicts (baseline current : List (String × Json)) (path : String) :
    List Change :=
  compareLoop1 baseline current path ++ compareLoop2 baseline current path
termination_by sizeOf baseline + sizeOf current + 1
end

/-! ## Python string primitives used by the monitor -/

/-- Whether the first character list is an initial segment of the second. -/
def charsStartWith : List Char → List Char → Bool
  | [], _ => true
  | _ :: _, [] => false
  | c :: cs, d :: ds => c == d && charsStartWith cs ds

/-- Substring containment on character lists. -/
def charsContain (needle : List Char) : List Char → Bool
  | [] => charsStartWith needle []
  | hay@(_ :: rest) => charsStartWith needle hay || charsContain needle rest

/-- The Python test `needle in hay` on strings. -/
def pyIn (needle hay : String) : Bool :=
  charsContain needle.toList hay.toList

/-- The Python test s.endswith(t). -/
def pyEndsWith (s t : String) : Bool :=
  charsStartWith t.toList.reverse s.toList.reverse

/-- Python str.lower restricted to the alphabet the dictionary phrases use. -/
def pyLower (s : String) : String := s.map Char.toLower

/-- The whitespace characters removed by Python str.strip. -/
def pySpace (c : Char) : Bool :=
  c == ' ' || c == '\t' || c == '\n' || c == '\r' || c == '\x0b' || c == '\x0c'

/-- Python str.strip with no argument. -/
def pyStrip (s : String) : String :=
  (((s.toList.dropWhile pySpace).reverse.dropWhile pySpace).reverse).asString

/-- The Python slice s[:n]. -/
def pyTake (n : Nat) (s : String) : String := (s.toList.take n).asString

/-- The Python slice s[-3:]. -/
def pyLast3 (s : String) : String := (s.toList.reverse.take 3).reverse.asString

/-- The Python oct builtin. -/
def pyOct (n : Nat) : String := "0o" ++ (Nat.toDigits 8 n).asString

/-- oct(st_mode)[-3:], the permission digits compared by the audit. -/
def modeLast3 (m : Nat) : String := pyLast3 (pyOct m)

/-- Line splitting as the Python file iterator yields lines: every line
keeps its trailing newline, a final fragment without one is still a line. -/
def splitLinesAux (acc : List Char) : List Char → List (List Char)
  | [] => if acc.isEmpty then [] else [acc.reverse]
  | c :: rest =>
    if c == '\n' then (acc.reverse ++ ['\n']) :: splitLinesAux [] rest
    else splitLinesAux (c :: acc) rest

def pySplitLines (s : String) : List String :=
  (splitLinesAux [] s.toList).map List.asString

/-- Python truthiness of a JSON value. -/
def pyTruthy : Json → Bool
  | .null => false
  | .bool b => b
  | .num n => n != 0
  | .str s => s != ""
  | .arr xs => !xs.isEmpty
  | .obj fields => !fields.isEmpty

/-- The Python repr of a Boolean, as interpolated into check details. -/
def pyBoolStr (b : Bool) : String := if b then "True" else "False"

/-- dict.get k dflt, raising AttributeError on a value that is not a
dictionary (as x.get does in Python). -/
def pyGet (j : Json) (k : String) (dflt : Json) : Except String Json :=
  match j with
  | .obj fields => .ok ((lookupJ k fields).getD dflt)
  | _ => .error "AttributeError: get called on a value that is not a dict"

/-! ## The file system and the durable event store -/

/-- A file that os.path.exists reports present: its stat mode word, its raw
byte content, and the result of parsing that content as JSON (none when the
content is not valid JSON). -/
structure FileInfo where
  bytes : String
  json : Option Json
  st_mode : Nat

/-- State of one path: absent (os.path.exists is false), unreadable (stat
succeeds but open raises, as with permission denied), or readable. -/
inductive FileState where
  | absent
  | unreadable (st_mode : Nat)
  | present (info : FileInfo)

/-- The file system seen by one monitoring step. -/
def FS : Type := String → FileState

def pathExists (fs : FS) (p : String) : Bool :=
  match fs p with
  | .absent => false
  | _ => true

/-- calculate_hash / calculate_file_hash: the SHA-256 hex digest of the
byte content, or None when the file cannot be opened.  The digest is
modelled as the byte content itself, an injective fingerprint, which
preserves every equality test the code performs on digests. -/
def calculateHash (fs : FS) (p : String) : Option String :=
  match fs p with
  | .present i => some i.bytes
  | _ => none

/-- os.stat st_mode for a path that exists. -/
def stMode (fs : FS) (p : String) : Option Nat :=
  match fs p with
  | .absent => none
  | .unreadable m => some m
  | .present i => some i.st_mode

/-- A row of config_history as created by SecurityMonitor._init_database
(columns id, timestamp, file_path, hash, change_type, alert_sent).  The
autoincrement id is not modelled: no query in the repository reads it.
Timestamps are naturals standing for ISO timestamp strings, whose
lexicographic order is the chronological order. -/
structure ConfigHistoryRow where
  timestamp : Nat
  file_path : String
  hash : String
  change_type : String
  alert_sent : Bool := false

/-- The drift dictionary built by SecurityMonitor.detect_drift and stored
in serialized form in the metadata column. -/
structure DriftRec where
  timestamp : Nat
  file : String
  expected : String
  actual : String
  severity : String

/-- The alert dictionary built by check_injection_patterns. -/
structure InjAlert where
  timestamp : Nat
  line_number : Nat
  pattern : String
  excerpt : String
  severity : String

structure AuditCheck where
  name : String
  status : String
  details : String

/-- The audit_results dictionary of run_audit. -/
structure AuditResults where
  timestamp : Nat
  checks : List AuditCheck
  score : Int
  issues : List String

/-- The structured payload serialized into the metadata column of
security_events by the three writers. -/
inductive EventMeta where
  | drift (d : DriftRec)
  | injection (a : InjAlert)
  | audit (r : AuditResults)

/-- A row of security_events. -/
structure SecurityEventRow where
  timestamp : Nat
  event_type : String
  severity : String
  description : String
  metadata : EventMeta
  resolved : Bool := false

/-- A row of drift_alerts. -/
structure DriftAlertRow where
  timestamp : Nat
  file_path : String
  expected_hash : String
  actual_hash : String
  diff_summary : String
  acknowledged : Bool := false

/-- The embedded relational store (monitor.db).  api_metrics is read only
by the metrics aggregator and is not needed for the claims below. -/
structure Store where
  config_history : List ConfigHistoryRow := []
  security_events : List SecurityEventRow := []
  drift_alerts : List DriftAlertRow := []

/-- ORDER BY timestamp DESC LIMIT 1 over rows kept in insertion order; on
equal timestamps the earlier row is kept (every scenario below uses
distinct timestamps, so the tie rule is never exercised). -/
def latestRow : List ConfigHistoryRow → Option ConfigHistoryRow
  | [] => none
  | r :: rest =>
    match latestRow rest with
    | none => some r
    | some m => if m.timestamp > r.timestamp then some m else some r

/-- DriftDetector.get_baseline_hash: the hash of the most recent
config_history row for the path whose change_type is baseline.  Rows with
change_type approved_change, as written by approve_drift, do not match the
WHERE clause. -/
def getBaselineHash (st : Store) (p : String) : Option String :=
  (latestRow (st.config_history.filter
    (fun r => r.file_path == p && r.change_type == "baseline"))).map (·.hash)

/-- The column names of config_history in the CREATE TABLE statement of
SecurityMonitor._init_database. -/
def configHistoryColumns : List String :=
  ["id", "timestamp", "file_path", "hash", "change_type", "alert_sent"]

/-- The statement SELECT metadata FROM config_history WHERE ... issued by
DriftDetector.detect_json_drift.  sqlite resolves the selected column
against the table schema when the statement is prepared, and
config_history has no metadata column, so the call raises
OperationalError whatever rows are stored. -/
def selectLatestMetadata (st : Store) (p : String) : Except String (Option Json) :=
  if h : "metadata" ∈ configHistoryColumns then absurd h (by decide)
  else .error "no such column: metadata"

def selectLatestMetadata_error (st : Store) (p : String) :
    selectLatestMetadata st p = .error "no such column: metadata" := by
  rw [selectLatestMetadata, dif_neg (by decide)]

/-- The dictionary returned by DriftDetector.detect_json_drift: the error
form from the except branch, or the drift report. -/
inductive DriftInfo where
  | err (msg : String)
  | report (has_drift : Bool) (changes : List Change) (filepath : String)
      (timestamp : Nat)

/-- drift_info.get with key changes and default the empty list. -/
def DriftInfo.getChanges : DriftInfo → List Change
  | .err _ => []
  | .report _ cs _ _ => cs

/-- DriftDetector.detect_json_drift.  The file is opened and parsed, then
the metadata column of the latest baseline row is selected; the select
raises (see selectLatestMetadata), the except branch catches the
exception, and the error dictionary is returned.  The comparison code
after the select is unreachable against the schema of this repository. -/
def detectJsonDrift (fs : FS) (st : Store) (p : String) : DriftInfo :=
  match fs p with
  | .present i =>
    match i.json with
    | some _current =>
      match h : selectLatestMetadata st p with
      | .error e => .err e
      | .ok _ => False.elim (by rw [selectLatestMetadata_error] at h; exact Except.noConfusion h)
    | none => .err "Expecting value: the file content is not valid JSON"
  | _ => .err "could not open file"

/-! ## Drift scanning and approval (drift_detector.py) -/

/-- One detail dictionary of scan_all_monitored_files.  The keys other
than filepath and status appear only in some branches, so they are
optional; the current_hash key, when present, can itself hold None. -/
structure ScanDetail where
  filepath : String
  status : String
  error : Option String := none
  baseline_hash : Option String := none
  current_hash : Option (Option String) := none
  changes : Option (List Change) := none

/-- Python falsiness of an optional string (None and the empty string). -/
def pyFalsyOptStr : Option String → Bool
  | none => true
  | some s => s == ""

/-- One iteration of the loop of DriftDetector.scan_all_monitored_files. -/
def scanOne (fs : FS) (st : Store) (p : String) : ScanDetail :=
  if pathExists fs p = false then
    { filepath := p, status := "missing", error := some "File not found" }
  else
    let baseline_hash := getBaselineHash st p
    let current_hash := calculateHash fs p
    if pyFalsyOptStr baseline_hash then
      { filepath := p, status := "no_baseline",
        error := some "No baseline hash found" }
    else if baseline_hash != current_hash then
      if pyEndsWith p ".json" then
        { filepath := p, status := "drift_detected",
          baseline_hash := baseline_hash, current_hash := some current_hash,
          changes := some (detectJsonDrift fs st p).getChanges }
      else
        { filepath := p, status := "drift_detected",
          baseline_hash := baseline_hash, current_hash := some current_hash }
    else
      { filepath := p, status := "ok" }

/-- The accumulating loop of scan_all_monitored_files: the counter is
incremented exactly on the branch that sets status drift_detected. -/
def scanLoop (fs : FS) (st : Store) : List String → Nat × List ScanDetail
  | [] => (0, [])
  | p :: rest =>
    let d := scanOne fs st p
    let r := scanLoop fs st rest
    ((if d.status == "drift_detected" then 1 else 0) + r.1, d :: r.2)

/-- The results dictionary of scan_all_monitored_files. -/
structure ScanResults where
  timestamp : Nat
  total_files : Nat
  files_with_drift : Nat
  details : List ScanDetail

/-- DriftDetector.scan_all_monitored_files. -/
def scanAll (fs : FS) (st : Store) (now : Nat) (files : List String) :
    ScanResults :=
  { timestamp := now, total_files := files.length,
    files_with_drift := (scanLoop fs st files).1,
    details := (scanLoop fs st files).2 }

/-- The return dictionary of DriftDetector.approve_drift. -/
inductive ApproveResult where
  | err (msg : String)
  | approved (filepath new_baseline : String)

/-- The row update of the UPDATE statement of approve_drift: a row whose
file_path matches and whose acknowledged flag is 0 gets acknowledged. -/
def ackUpdate (p : String) (a : DriftAlertRow) : DriftAlertRow :=
  if a.file_path == p && a.acknowledged == false then
    { a with acknowledged := true }
  else a

/-- DriftDetector.approve_drift: acknowledge every unacknowledged drift
alert for the path and append a config_history row with change_type
approved_change; the UPDATE and the INSERT share one commit.  When the
hash cannot be computed the error dictionary is returned before any
database statement runs. -/
def approveDrift (fs : FS) (now : Nat) (st : Store) (p : String) :
    Store × ApproveResult :=
  match calculateHash fs p with
  | none => (st, .err "Could not calculate hash")
  | some h =>
    ({ st with
        drift_alerts := st.drift_alerts.map (ackUpdate p),
        config_history := st.config_history ++
          [{ timestamp := now, file_path := p, hash := h,
             change_type := "approved_change" }] },
      .approved p h)

/-! ## The monitor daemon (monitor.py) -/

/-- SecurityMonitor.detect_drift for a single monitored file, against the
in-memory baseline map established by establish_baseline.  The two INSERT
statements run inside one implicit sqlite transaction ended by the
following commit, so they are one atomic store update.  When the file
exists, a baseline is known, and the hash cannot be computed, the
comparison sees a difference but building the diff summary subscripts
None and raises TypeError before the first INSERT executes: the error
result carries the untouched store. -/
def detectDriftFile (fs : FS) (baselines : String → Option String) (now : Nat)
    (st : Store) (p : String) : Store × Except String (List DriftRec) :=
  if pathExists fs p = false then (st, .ok [])
  else
    let current_hash := calculateHash fs p
    match baselines p with
    | none => (st, .ok [])
    | some b =>
      if b == "" then (st, .ok [])
      else if current_hash == some b then (st, .ok [])
      else
        match current_hash with
        | none => (st, .error "TypeError: NoneType is not subscriptable")
        | some c =>
          let sev :=
            if pyIn "SOUL.md" p || pyIn "openclaw.json" p then "high"
            else "medium"
          let d : DriftRec :=
            { timestamp := now, file := p, expected := b, actual := c,
              severity := sev }
          ({ st with
              drift_alerts := st.drift_alerts ++
                [{ timestamp := now, file_path := p, expected_hash := b,
                   actual_hash := c,
                   diff_summary := "Hash changed from " ++ pyTake 8 b ++
                     " to " ++ pyTake 8 c }],
              security_events := st.security_events ++
                [{ timestamp := now, event_type := "config_drift",
                   severity := sev,
                   description := "Configuration drift detected in " ++ p,
                   metadata := .drift d }] },
            .ok [d])

/-- The loop of SecurityMonitor.detect_drift over the monitored files; an
exception aborts the loop, keeping the store committed so far. -/
def detectDrift (fs : FS) (baselines : String → Option String) (now : Nat)
    (st : Store) : List String → Store × Except String (List DriftRec)
  | [] => (st, .ok [])
  | p :: rest =>
    match detectDriftFile fs baselines now st p with
    | (st', .error e) => (st', .error e)
    | (st', .ok ds) =>
      match detectDrift fs baselines now st' rest with
      | (st'', .error e) => (st'', .error e)
      | (st'', .ok ds') => (st'', .ok (ds ++ ds'))

/-- The fixed dictionary of injection-indicative phrases. -/
def injectionPatterns : List String :=
  ["ignore previous instructions", "disregard all previous", "you are now",
   "new instructions", "system prompt", "forget everything", "developer mode",
   "jailbreak"]

/-- The security event inserted for one injection alert. -/
def injEvent (a : InjAlert) : SecurityEventRow :=
  { timestamp := a.timestamp, event_type := "injection_attempt",
    severity := "critical",
    description := "Possible injection attempt detected: " ++ a.pattern,
    metadata := .injection a }

/-- The alert dictionary built for one (line, pattern) match. -/
def mkInjAlert (now line_num : Nat) (line pat : String) : InjAlert :=
  { timestamp := now, line_number := line_num, pattern := pat,
    excerpt := pyTake 200 (pyStrip line), severity := "critical" }

/-- The inner loop of check_injection_patterns for one line: one alert per
dictionary phrase contained in the lowercased line. -/
def scanLinePatterns (now line_num : Nat) (line : String) :
    List String → List InjAlert
  | [] => []
  | pat :: rest =>
    (if pyIn pat (pyLower line) then [mkInjAlert now line_num line pat]
     else []) ++ scanLinePatterns now line_num line rest

/-- The line loop of check_injection_patterns over the split lines of the
log file, with line numbers counted from the given start; every alert also
inserts its security event. -/
def scanLines (now : Nat) : Nat → Store → List String → List InjAlert × Store
  | _, st, [] => ([], st)
  | n, st, line :: rest =>
    let as := scanLinePatterns now n line injectionPatterns
    let st' := { st with
      security_events := st.security_events ++ as.map injEvent }
    let r := scanLines now (n + 1) st' rest
    (as ++ r.1, r.2)

/-- SecurityMonitor.check_injection_patterns.  A missing log file returns
no alerts; a file that exists but cannot be opened raises inside the try
block and the except branch returns the alerts gathered so far (none). -/
def checkInjectionPatterns (fs : FS) (st : Store) (now : Nat)
    (log_file : String) : List InjAlert × Store :=
  match fs log_file with
  | .present i => scanLines now 1 st (pySplitLines i.bytes)
  | _ => ([], st)

/-- The sensitive files checked by run_audit. -/
def sensitiveFiles : List String := [".env", "openclaw.json", "SOUL.md"]

/-- The file permission loop of run_audit: for each sensitive file that
exists, a pass check when oct(st_mode)[-3:] is 600, otherwise a fail
check, a 10 point deduction and an issue naming the file. -/
def auditFileLoop (fs : FS) (res : AuditResults) :
    List String → AuditResults
  | [] => res
  | p :: rest =>
    let res' :=
      match stMode fs p with
      | none => res
      | some m =>
        let mode := modeLast3 m
        let check : AuditCheck :=
          { name := "Permissions: " ++ p,
            status := if mode == "600" then "pass" else "fail",
            details := "Mode: " ++ mode }
        let res1 := { res with checks := res.checks ++ [check] }
        if check.status == "fail" then
          { res1 with
              score := res1.score - 10
              issues := res1.issues ++ ["Insecure permissions on " ++ p] }
        else res1
    auditFileLoop fs res' rest

/-- The configuration section of run_audit: when openclaw.json exists it
is opened and parsed (a raised exception propagates out of run_audit), and
the two security flags are checked with a 20 point deduction each. -/
def auditConfigChecks (fs : FS) (res : AuditResults) :
    Except String AuditResults :=
  match fs "openclaw.json" with
  | .absent => .ok res
  | .unreadable _ => .error "could not open openclaw.json"
  | .present i =>
    match i.json with
    | none => .error "Expecting value: openclaw.json is not valid JSON"
    | some config => do
      let security ← pyGet config "security" (.obj [])
      let auth ← pyGet security "authentication" (.obj [])
      let authVal ← pyGet auth "enabled" (.bool false)
      let auth_enabled := pyTruthy authVal
      let res1 := { res with checks := res.checks ++
        [({ name := "Authentication enabled",
            status := if auth_enabled then "pass" else "fail",
            details := "Enabled: " ++ pyBoolStr auth_enabled } : AuditCheck)] }
      let res2 :=
        if !auth_enabled then
          { res1 with
              score := res1.score - 20
              issues := res1.issues ++ ["Authentication is disabled"] }
        else res1
      let security2 ← pyGet config "security" (.obj [])
      let defense ← pyGet security2 "prompt_injection_defense" (.obj [])
      let defenseVal ← pyGet defense "enabled" (.bool false)
      let injection_defense := pyTruthy defenseVal
      let res3 := { res2 with checks := res2.checks ++
        [({ name := "Prompt injection defense",
            status := if injection_defense then "pass" else "fail",
            details := "Enabled: " ++ pyBoolStr injection_defense } : AuditCheck)] }
      let res4 :=
        if !injection_defense then
          { res3 with
              score := res3.score - 20
              issues := res3.issues ++ ["Prompt injection defense is disabled"] }
        else res3
      pure res4

/-- The security event persisting an audit result. -/
def auditEvent (r : AuditResults) : SecurityEventRow :=
  { timestamp := r.timestamp, event_type := "security_audit",
    severity := if r.score < 70 then "critical" else "info",
    description := "Security audit completed. Score: " ++ toString r.score,
    metadata := .audit r }

/-- SecurityMonitor.run_audit: score starts at 100, the permission checks
and the two flag checks deduct their penalties, and the result is
persisted as one security event, critical below score 70 and info
otherwise. -/
def runAudit (fs : FS) (st : Store) (now : Nat) :
    Except String (AuditResults × Store) := do
  let res0 : AuditResults :=
    { timestamp := now, checks := [], score := 100, issues := [] }
  let res1 := auditFileLoop fs res0 sensitiveFiles
  let res2 ← auditConfigChecks fs res1
  pure (res2,
    { st with security_events := st.security_events ++ [auditEvent res2] })

/-! ## Statement apparatus -/

/-- Distinctness of the keys of an association list, as holds for every
dictionary produced by json.load. -/
def nodupKeys : List (String × Json) → Bool
  | [] => true
  | (k, _) :: rest => !(rest.any (fun q => q.1 == k)) && nodupKeys rest

mutual
/-- Well-formedness of a parsed JSON value: every object anywhere inside
has distinct keys. -/
def wfJson : Json → Bool
  | .null => true
  | .bool _ => true
  | .num _ => true
  | .str _ => true
  | .arr xs => wfList xs
  | .obj fields => nodupKeys fields && wfFields fields

def wfList : List Json → Bool
  | [] => true
  | x :: xs => wfJson x && wfList xs

def wfFields : List (String × Json) → Bool
  | [] => true
  | (_, v) :: rest => wfJson v && wfFields rest
end

/-- The mirror of a diff entry: added and removed exchange, modified swaps
its old and new values, the path is unchanged. -/
def swapChange : Change → Change
  | .added p v => .removed p v
  | .removed p v => .added p v
  | .modified p o n => .modified p n o

/-- The path of a diff entry. -/
def changePath : Change → String
  | .added p _ => p
  | .removed p _ => p
  | .modified p _ _ => p

/-- Whether both values are dictionaries (the isinstance test pair of
`_compare_dicts`). -/
def bothObj : Json → Json → Bool
  | .obj _, .obj _ => true
  | _, _ => false

/-- Whether the permission check of run_audit fails for one file: the file
exists and its permission digits differ from 600. -/
def fileModeFails (fs : FS) (p : String) : Bool :=
  match stMode fs p with
  | none => false
  | some m => !(modeLast3 m == "600")

/-- The number of failing permission checks among the sensitive files. -/
def fileFailCount (fs : FS) : Nat :=
  (sensitiveFiles.filter (fun p => fileModeFails fs p)).length

/-- Whether the flag security.key.enabled of the configuration document is
disabled or absent, for a document that run_audit reads without raising;
when openclaw.json does not exist the check is skipped and no deduction
applies. -/
def flagFails (fs : FS) (key : String) : Bool :=
  match fs "openclaw.json" with
  | .present i =>
    match i.json with
    | some config =>
      match (do
          let s ← pyGet config "security" (.obj [])
          let a ← pyGet s key (.obj [])
          pyGet a "enabled" (.bool false) : Except String Json) with
      | .ok v => !pyTruthy v
      | .error _ => false
    | none => false
  | _ => false

/-- The audit score as a function of the failing checks. -/
def scoreFormula (fileFails : Nat) (authFails injFails : Bool) : Int :=
  100 - 10 * fileFails - (if authFails then 20 else 0) -
    (if injFails then 20 else 0)

/-- Security events of type config_drift. -/
def countConfigDrift (evs : List SecurityEventRow) : Nat :=
  (evs.filter (fun e => e.event_type == "config_drift")).length

/-- The unacknowledged drift alerts recorded for a path. -/
def unackedAlertsFor (st : Store) (p : String) : List DriftAlertRow :=
  st.drift_alerts.filter (fun a => a.file_path == p && a.acknowledged == false)

/-! ## Concrete fixtures for the closed scenarios -/

/-- The empty store. -/
def stEmpty : Store := {}

/-- A file system with no files. -/
def fsEmpty : FS := fun _ => .absent

/-- The baseline document of end-to-end scenario 1. -/
def baselineDoc : List (String × Json) :=
  [("auth", Json.obj [("enabled", Json.bool true)])]

/-- The drifted current document of end-to-end scenario 1. -/
def currentDoc : List (String × Json) :=
  [("auth", Json.obj [("enabled", Json.bool false)])]

/-- A file system where config.json holds the drifted document. -/
def fsScenario1 : FS := fun p =>
  if p = "config.json" then
    .present { bytes := "v2", json := some (Json.obj currentDoc),
               st_mode := 0o100600 }
  else .absent

/-- A store whose latest baseline row for config.json carries the
fingerprint of the original content. -/
def stScenario1 : Store :=
  { config_history := [{ timestamp := 1, file_path := "config.json",
                         hash := "v1", change_type := "baseline" }] }

/-- A file system where f.txt is readable. -/
def fsPlain : FS := fun p =>
  if p = "f.txt" then
    .present { bytes := "data", json := none, st_mode := 0o100600 }
  else .absent

/-- A store holding one unacknowledged drift alert for f.txt. -/
def stAlerted : Store :=
  { config_history := [{ timestamp := 1, file_path := "f.txt",
                         hash := "h1", change_type := "baseline" }]
    drift_alerts := [{ timestamp := 2, file_path := "f.txt",
                       expected_hash := "h1", actual_hash := "data",
                       diff_summary := "" }] }

/-- A file system where cfg.json exists but cannot be opened. -/
def fsUnreadable : FS := fun p =>
  if p = "cfg.json" then .unreadable 0o100600 else .absent

/-- A store with a baseline row for cfg.json. -/
def stUnreadable : Store :=
  { config_history := [{ timestamp := 1, file_path := "cfg.json",
                         hash := "h1", change_type := "baseline" }] }

/-- The in-memory baseline map of the drift scenario. -/
def baselinesDrift : String → Option String := fun p =>
  if p = "openclaw.json" then some "old" else none

/-- A file system whose openclaw.json content drifted away from the
baseline map value. -/
def fsDrifted : FS := fun p =>
  if p = "openclaw.json" then
    .present { bytes := "new", json := none, st_mode := 0o100644 }
  else .absent

/-- The audit result of a run against an empty file system. -/
def auditResEmpty : AuditResults :=
  { timestamp := 0, checks := [], score := 100, issues := [] }

/-- The store left by that audit run. -/
def stAfterAudit : Store := { security_events := [auditEvent auditResEmpty] }

/-! ## Theorems -/

theorem scanLoop_snd (fs : FS) (st : Store) (files : List String) :
    (scanLoop fs st files).2 = files.map (scanOne fs st) := by
  induction files with
  | nil => rfl
  | cons p rest ih => simp [scanLoop, ih]

theorem scanLoop_fst (fs : FS) (st : Store) (files : List String) :
    (scanLoop fs st files).1 =
      ((scanLoop fs st files).2.filter
        (fun d => d.status == "drift_detected")).length := by
  induction files with
  | nil => rfl
  | cons p rest ih =>
    simp only [scanLoop, List.filter_cons]
    by_cases hc : (scanOne fs st p).status == "drift_detected"
    · simp [hc, ih]
      omega
    · simp [hc, ih]

theorem scanOne_status (fs : FS) (st : Store) (p : String) :
    (scanOne fs st p).status = "missing" ∨
    (scanOne fs st p).status = "no_baseline" ∨
    (scanOne fs st p).status = "drift_detected" ∨
    (scanOne fs st p).status = "ok" := by
  by_cases h1 : pathExists fs p = false
  · simp [scanOne, h1]
  · by_cases h2 : pyFalsyOptStr (getBaselineHash st p) = true
    · simp [scanOne, h1, h2]
    · by_cases h3 : (getBaselineHash st p != calculateHash fs p) = true
      · by_cases h4 : pyEndsWith p ".json" = true
        · simp [scanOne, h1, h2, h3, h4]
        · simp [scanOne, h1, h2, h3, h4]
      · simp [scanOne, h1, h2, h3]

/-- Claim C10: scan_all_monitored_files returns one detail entry per input
path, in input order, each with status among missing, no_baseline,
drift_detected and ok; total_files is the length of the input list and
files_with_drift counts the entries whose status is drift_detected. -/
theorem scan_all_results_shape (fs : FS) (st : Store) (now : Nat)
    (files : List String) :
    (scanAll fs st now files).details = files.map (scanOne fs st) ∧
    (scanAll fs st now files).total_files = files.length ∧
    (scanAll fs st now files).files_with_drift =
      ((scanAll fs st now files).details.filter
        (fun d => d.status == "drift_detected")).length ∧
    ∀ d ∈ (scanAll fs st now files).details,
      d.status = "missing" ∨ d.status = "no_baseline" ∨
      d.status = "drift_detected" ∨ d.status = "ok" := by
  refine ⟨scanLoop_snd fs st files, rfl, scanLoop_fst fs st files, ?_⟩
  intro d hd
  rw [show (scanAll fs st now files).details = (scanLoop fs st files).2 from rfl,
    scanLoop_snd fs st files] at hd
  obtain ⟨p, _, rfl⟩ := List.mem_map.mp hd
  exact scanOne_status fs st p

theorem scan_all_results_shape_witness :
    (scanAll fsEmpty stEmpty 0 ["a"]).details =
      ["a"].map (scanOne fsEmpty stEmpty) ∧
    (scanAll fsEmpty stEmpty 0 ["a"]).total_files = (["a"] : List String).length ∧
    (scanAll fsEmpty stEmpty 0 ["a"]).files_with_drift =
      ((scanAll fsEmpty stEmpty 0 ["a"]).details.filter
        (fun d => d.status == "drift_detected")).length ∧
    ∀ d ∈ (scanAll fsEmpty stEmpty 0 ["a"]).details,
      d.status = "missing" ∨ d.status = "no_baseline" ∨
      d.status = "drift_detected" ∨ d.status = "ok" :=
  scan_all_results_shape fsEmpty stEmpty 0 ["a"]

theorem ackUpdate_not_unacked (p : String) (a : DriftAlertRow) :
    ((ackUpdate p a).file_path == p && (ackUpdate p a).acknowledged == false)
      = false := by
  unfold ackUpdate
  by_cases h : (a.file_path == p && a.acknowledged == false) = true
  · rw [if_pos h]
    simp
  · rw [if_neg h]
    simpa using h

theorem ackUpdate_acked (p : String) (a : DriftAlertRow) :
    (ackUpdate p a).file_path = p → (ackUpdate p a).acknowledged = true := by
  intro hfp
  have h := ackUpdate_not_unacked p a
  simp [hfp] at h
  exact h

theorem approve_ack_filter (p : String) (l : List DriftAlertRow) :
    (l.map (ackUpdate p)).filter
      (fun a => a.file_path == p && a.acknowledged == false) = [] := by
  induction l with
  | nil => rfl
  | cons a rest ih =>
    simp only [List.map_cons, List.filter_cons, ackUpdate_not_unacked p a]
    exact ih

/-- Claim C4: for a path readable at call time, approve_drift acknowledges
every drift alert for the path (no unacknowledged alert remains), inserts
exactly one config_history row, and a second call inserts exactly one more
row while still leaving zero unacknowledged alerts. -/
theorem approve_drift_acknowledges (fs : FS) (n1 n2 : Nat) (st : Store)
    (p hash : String) (h : calculateHash fs p = some hash) :
    (approveDrift fs n1 st p).2 = ApproveResult.approved p hash ∧
    unackedAlertsFor (approveDrift fs n1 st p).1 p = [] ∧
    (approveDrift fs n1 st p).1.config_history.length =
      st.config_history.length + 1 ∧
    (approveDrift fs n2 (approveDrift fs n1 st p).1 p).2 =
      ApproveResult.approved p hash ∧
    unackedAlertsFor (approveDrift fs n2 (approveDrift fs n1 st p).1 p).1 p = [] ∧
    (approveDrift fs n2 (approveDrift fs n1 st p).1 p).1.config_history.length =
      st.config_history.length + 2 := by
  refine ⟨?_, ?_, ?_, ?_, ?_, ?_⟩ <;>
    simp [approveDrift, h, unackedAlertsFor, approve_ack_filter]
  · exact fun a _ => ackUpdate_acked p a
  · exact fun a _ => ackUpdate_acked p (ackUpdate p a)

theorem approve_drift_acknowledges_witness :
    calculateHash fsPlain "f.txt" = some "data" ∧
    ((approveDrift fsPlain 3 stAlerted "f.txt").2 =
        ApproveResult.approved "f.txt" "data" ∧
      unackedAlertsFor (approveDrift fsPlain 3 stAlerted "f.txt").1 "f.txt" = [] ∧
      (approveDrift fsPlain 3 stAlerted "f.txt").1.config_history.length =
        stAlerted.config_history.length + 1 ∧
      (approveDrift fsPlain 4 (approveDrift fsPlain 3 stAlerted "f.txt").1 "f.txt").2 =
        ApproveResult.approved "f.txt" "data" ∧
      unackedAlertsFor
        (approveDrift fsPlain 4 (approveDrift fsPlain 3 stAlerted "f.txt").1 "f.txt").1
        "f.txt" = [] ∧
      (approveDrift fsPlain 4
        (approveDrift fsPlain 3 stAlerted "f.txt").1 "f.txt").1.config_history.length =
        stAlerted.config_history.length + 2) :=
  ⟨by simp [calculateHash, fsPlain],
   approve_drift_acknowledges fsPlain 3 4 stAlerted "f.txt" "data"
     (by simp [calculateHash, fsPlain])⟩

theorem detectDriftFile_ok_spec (fs : FS) (baselines : String → Option String)
    (now : Nat) (st : Store) (p : String) (st' : Store) (ds : List DriftRec)
    (heq : detectDriftFile fs baselines now st p = (st', Except.ok ds)) :
    st'.drift_alerts.length = st.drift_alerts.length + ds.length ∧
    countConfigDrift st'.security_events =
      countConfigDrift st.security_events + ds.length ∧
    ds.length ≤ 1 ∧
    (ds.length = 1 ↔ pathExists fs p = true ∧
      ∃ b c, baselines p = some b ∧ b ≠ "" ∧
        calculateHash fs p = some c ∧ c ≠ b) ∧
    (ds = [] → st' = st) := by
  unfold detectDriftFile at heq
  by_cases h1 : pathExists fs p = false
  · rw [if_pos h1] at heq
    simp only [Prod.mk.injEq, Except.ok.injEq] at heq
    obtain ⟨rfl, rfl⟩ := heq
    simp [h1]
  · rw [if_neg h1] at heq
    simp only at heq
    rcases hb : baselines p with _ | b
    · rw [hb] at heq
      simp only [Prod.mk.injEq, Except.ok.injEq] at heq
      obtain ⟨rfl, rfl⟩ := heq
      simp [hb]
    · rw [hb] at heq
      dsimp only at heq
      by_cases hbe : (b == "") = true
      · rw [if_pos hbe] at heq
        simp only [Prod.mk.injEq, Except.ok.injEq] at heq
        obtain ⟨rfl, rfl⟩ := heq
        simp only [beq_iff_eq] at hbe
        simp [hb, hbe]
      · rw [if_neg hbe] at heq
        by_cases hcb : (calculateHash fs p == some b) = true
        · rw [if_pos hcb] at heq
          simp only [Prod.mk.injEq, Except.ok.injEq] at heq
          obtain ⟨rfl, rfl⟩ := heq
          simp only [beq_iff_eq] at hcb
          simp [hb, hcb]
        · rw [if_neg hcb] at heq
          rcases hc : calculateHash fs p with _ | c

          · rw [hc] at heq
            simp at heq
          · rw [hc] at heq
            simp only [Prod.mk.injEq, Except.ok.injEq] at heq
            obtain ⟨rfl, rfl⟩ := heq
            rw [hc] at hcb
            simp only [beq_iff_eq] at hbe hcb
            have hne : c ≠ b := by
              intro hcb'
              exact hcb (by rw [hcb'])
            constructor
            · simp [countConfigDrift, List.filter_append]
            constructor
            · simp [countConfigDrift, List.filter_append]
            constructor
            · simp
            constructor
            · constructor
              · intro _
                refine ⟨by simpa using h1, b, c, rfl, hbe, rfl, hne⟩
              · intro _
                simp
            · intro hds
              simp at hds

theorem detectDriftFile_err_spec (fs : FS) (baselines : String → Option String)
    (now : Nat) (st : Store) (p : String) (st' : Store) (e : String)
    (heq : detectDriftFile fs baselines now st p = (st', Except.error e)) :
    st' = st := by
  unfold detectDriftFile at heq
  by_cases h1 : pathExists fs p = false
  · rw [if_pos h1] at heq
    simp at heq
  · rw [if_neg h1] at heq
    simp only at heq
    rcases hb : baselines p with _ | b
    · rw [hb] at heq
      simp at heq
    · rw [hb] at heq
      dsimp only at heq
      by_cases hbe : (b == "") = true
      · rw [if_pos hbe] at heq
        simp at heq
      · rw [if_neg hbe] at heq
        by_cases hcb : (calculateHash fs p == some b) = true
        · rw [if_pos hcb] at heq
          simp at heq
        · rw [if_neg hcb] at heq
          rcases hc : calculateHash fs p with _ | c
          · rw [hc] at heq
            simp only [Prod.mk.injEq] at heq
            exact heq.1.symm
          · rw [hc] at heq
            simp at heq

theorem detectDriftFile_delta (fs : FS) (baselines : String → Option String)
    (now : Nat) (st : Store) (p : String) :
    (detectDriftFile fs baselines now st p).1.drift_alerts.length +
        countConfigDrift st.security_events =
      st.drift_alerts.length +
        countConfigDrift (detectDriftFile fs baselines now st p).1.security_events := by
  rcases hf : detectDriftFile fs baselines now st p with ⟨st', r⟩
  rcases r with e | ds
  · rw [detectDriftFile_err_spec fs baselines now st p st' e hf]
  · obtain ⟨h1, h2, _, _, _⟩ :=
      detectDriftFile_ok_spec fs baselines now st p st' ds hf
    simp only
    omega

theorem detectDrift_delta (fs : FS) (baselines : String → Option String)
    (now : Nat) (files : List String) :
    ∀ st : Store,
      (detectDrift fs baselines now st files).1.drift_alerts.length +
          countConfigDrift st.security_events =
        st.drift_alerts.length +
          countConfigDrift (detectDrift fs baselines now st files).1.security_events := by
  induction files with
  | nil => intro st; simp [detectDrift]
  | cons p rest ih =>
    intro st
    have hfile := detectDriftFile_delta fs baselines now st p
    rcases hf : detectDriftFile fs baselines now st p with ⟨st', r⟩
    rw [hf] at hfile
    simp only at hfile
    rcases r with e | ds
    · simp only [detectDrift, hf]
      exact hfile
    · have hrest := ih st'
      rcases hr : detectDrift fs baselines now st' rest with ⟨st'', r'⟩
      rw [hr] at hrest
      simp only at hrest
      rcases r' with e' | ds'
      · simp only [detectDrift, hf, hr]
        omega
      · simp only [detectDrift, hf, hr]
        omega

/-- Claim C3: a drift-detection step never records a drift alert when the
computed fingerprint equals the baseline; on a mismatch it records exactly
one drift alert together with exactly one config_drift security event in
the same transaction, and an aborted step leaves the store unchanged, so
the count of drift alerts added by the loop always equals the count of
config_drift events added. -/
theorem detect_drift_pairing (fs : FS) (baselines : String → Option String)
    (now : Nat) (st : Store) (p : String) (files : List String) :
    (∀ st' ds, detectDriftFile fs baselines now st p = (st', Except.ok ds) →
      st'.drift_alerts.length = st.drift_alerts.length + ds.length ∧
      countConfigDrift st'.security_events =
        countConfigDrift st.security_events + ds.length ∧
      ds.length ≤ 1 ∧
      (ds.length = 1 ↔ pathExists fs p = true ∧
        ∃ b c, baselines p = some b ∧ b ≠ "" ∧
          calculateHash fs p = some c ∧ c ≠ b) ∧
      (ds = [] → st' = st)) ∧
    (∀ st' e, detectDriftFile fs baselines now st p = (st', Except.error e) →
      st' = st) ∧
    ((detectDrift fs baselines now st files).1.drift_alerts.length +
        countConfigDrift st.security_events =
      st.drift_alerts.length +
        countConfigDrift (detectDrift fs baselines now st files).1.security_events) :=
  ⟨fun st' ds h => detectDriftFile_ok_spec fs baselines now st p st' ds h,
   fun st' e h => detectDriftFile_err_spec fs baselines now st p st' e h,
   detectDrift_delta fs baselines now files st⟩

theorem detect_drift_pairing_witness :
    (∀ st' ds, detectDriftFile fsDrifted baselinesDrift 5 stEmpty
        "openclaw.json" = (st', Except.ok ds) →
      st'.drift_alerts.length = stEmpty.drift_alerts.length + ds.length ∧
      countConfigDrift st'.security_events =
        countConfigDrift stEmpty.security_events + ds.length ∧
      ds.length ≤ 1 ∧
      (ds.length = 1 ↔ pathExists fsDrifted "openclaw.json" = true ∧
        ∃ b c, baselinesDrift "openclaw.json" = some b ∧ b ≠ "" ∧
          calculateHash fsDrifted "openclaw.json" = some c ∧ c ≠ b) ∧
      (ds = [] → st' = stEmpty)) ∧
    (∀ st' e, detectDriftFile fsDrifted baselinesDrift 5 stEmpty
        "openclaw.json" = (st', Except.error e) → st' = stEmpty) ∧
    ((detectDrift fsDrifted baselinesDrift 5 stEmpty
        ["openclaw.json"]).1.drift_alerts.length +
        countConfigDrift stEmpty.security_events =
      stEmpty.drift_alerts.length +
        countConfigDrift (detectDrift fsDrifted baselinesDrift 5 stEmpty
          ["openclaw.json"]).1.security_events) :=
  detect_drift_pairing fsDrifted baselinesDrift 5 stEmpty "openclaw.json"
    ["openclaw.json"]

theorem scanLinePatterns_mem (now n : Nat) (line : String)
    (pats : List String) (a : InjAlert) :
    a ∈ scanLinePatterns now n line pats ↔
      ∃ pat, pat ∈ pats ∧ pyIn pat (pyLower line) = true ∧
        a = mkInjAlert now n line pat := by
  induction pats with
  | nil => simp [scanLinePatterns]
  | cons pat rest ih =>
    simp only [scanLinePatterns]
    constructor
    · intro ha
      rcases List.mem_append.mp ha with h1 | h2
      · by_cases hm : pyIn pat (pyLower line) = true
        · rw [if_pos hm] at h1
          rcases List.mem_singleton.mp h1 with rfl
          exact ⟨pat, List.mem_cons_self pat rest, hm, rfl⟩
        · rw [if_neg hm] at h1
          simp at h1
      · obtain ⟨q, hq, hin, rfl⟩ := ih.mp h2
        exact ⟨q, List.mem_cons_of_mem pat hq, hin, rfl⟩
    · rintro ⟨q, hq, hin, rfl⟩
      rcases List.mem_cons.mp hq with rfl | hq'
      · refine List.mem_append.mpr (Or.inl ?_)
        rw [if_pos hin]
        exact List.mem_singleton.mpr rfl
      · exact List.mem_append.mpr (Or.inr (ih.mpr ⟨q, hq', hin, rfl⟩))

theorem scanLinePatterns_length (now n : Nat) (line : String)
    (pats : List String) :
    (scanLinePatterns now n line pats).length =
      (pats.filter (fun pat => pyIn pat (pyLower line))).length := by
  induction pats with
  | nil => rfl
  | cons pat rest ih =>
    by_cases hm : pyIn pat (pyLower line) = true
    · simp [scanLinePatterns, hm, List.filter_cons, ih]
    · simp [scanLinePatterns, hm, List.filter_cons, ih]

theorem pyTake_length_le (n : Nat) (s : String) : (pyTake n s).length ≤ n := by
  have : (pyTake n s).length = (s.toList.take n).length := rfl
  rw [this, List.length_take]
  omega

theorem scanLines_alerts (now : Nat) (lines : List String) :
    ∀ (n : Nat) (st : Store),
      (scanLines now n st lines).1 =
        ((List.enumFrom n lines).map
          (fun q => scanLinePatterns now q.1 q.2 injectionPatterns)).flatten := by
  induction lines with
  | nil => intro n st; rfl
  | cons line rest ih =>
    intro n st
    simp [scanLines, List.enumFrom, ih]

/-- Claim C7: on every line, the scanner emits an alert for a dictionary
phrase exactly when the lowercased line contains the phrase as a
substring; a line matching k dictionary phrases yields k alerts, each of
severity critical, with an excerpt of at most 200 characters and the line
number of that line; the alerts of a whole file are the concatenation of
the per-line alerts in order. -/
theorem injection_scanner_matches (now n : Nat) (line : String) (st : Store)
    (lines : List String) :
    (∀ pat, pat ∈ injectionPatterns →
      ((∃ a, a ∈ scanLinePatterns now n line injectionPatterns ∧
          a.pattern = pat) ↔ pyIn pat (pyLower line) = true)) ∧
    (scanLinePatterns now n line injectionPatterns).length =
      (injectionPatterns.filter (fun pat => pyIn pat (pyLower line))).length ∧
    (∀ a, a ∈ scanLinePatterns now n line injectionPatterns →
      a.severity = "critical" ∧ a.excerpt.length ≤ 200 ∧ a.line_number = n) ∧
    (scanLines now n st lines).1 =
      ((List.enumFrom n lines).map
        (fun q => scanLinePatterns now q.1 q.2 injectionPatterns)).flatten := by
  refine ⟨?_, scanLinePatterns_length now n line injectionPatterns, ?_,
    scanLines_alerts now lines n st⟩
  · intro pat hpat
    constructor
    · rintro ⟨a, ha, rfl⟩
      obtain ⟨q, _, hin, rfl⟩ := (scanLinePatterns_mem now n line _ a).mp ha
      exact hin
    · intro hin
      exact ⟨mkInjAlert now n line pat,
        (scanLinePatterns_mem now n line _ _).mpr ⟨pat, hpat, hin, rfl⟩, rfl⟩
  · intro a ha
    obtain ⟨q, _, _, rfl⟩ := (scanLinePatterns_mem now n line _ a).mp ha
    exact ⟨rfl, pyTake_length_le 200 (pyStrip line), rfl⟩

theorem injection_scanner_matches_witness :
    (∀ pat, pat ∈ injectionPatterns →
      ((∃ a, a ∈ scanLinePatterns 0 42
          "please IGNORE Previous Instructions now" injectionPatterns ∧
          a.pattern = pat) ↔
        pyIn pat (pyLower "please IGNORE Previous Instructions now") = true)) ∧
    (scanLinePatterns 0 42 "please IGNORE Previous Instructions now"
        injectionPatterns).length =
      (injectionPatterns.filter (fun pat =>
        pyIn pat (pyLower "please IGNORE Previous Instructions now"))).length ∧
    (∀ a, a ∈ scanLinePatterns 0 42
        "please IGNORE Previous Instructions now" injectionPatterns →
      a.severity = "critical" ∧ a.excerpt.length ≤ 200 ∧
        a.line_number = 42) ∧
    (scanLines 0 42 stEmpty ["x"]).1 =
      ((List.enumFrom 42 ["x"]).map
        (fun q => scanLinePatterns 0 q.1 q.2 injectionPatterns)).flatten :=
  injection_scanner_matches 0 42 "please IGNORE Previous Instructions now"
    stEmpty ["x"]

/-- Claim C9 counterexample: a monitored file that exists but cannot be
read (permission denied) is not recorded with status missing; with a
baseline present the scan reports it as drift_detected. -/
theorem unreadable_file_not_missing :
    pathExists fsUnreadable "cfg.json" = true ∧
    calculateHash fsUnreadable "cfg.json" = none ∧
    (scanOne fsUnreadable stUnreadable "cfg.json").status = "drift_detected" ∧
    (scanOne fsUnreadable stUnreadable "cfg.json").status ≠ "missing" := by
  refine ⟨rfl, rfl, rfl, ?_⟩
  intro h
  rw [show (scanOne fsUnreadable stUnreadable "cfg.json").status =
    "drift_detected" from rfl] at h
  simp at h

/-- Claim C9 (amended): a monitored file that is absent at scan time is
recorded with per-file status missing, the scan still produces one detail
per input file, and the drift-detection step records nothing for it; a
file that exists but cannot be read is not recorded as missing: with a
non-empty baseline it is reported as drift_detected. -/
theorem missing_file_status (fs : FS) (st : Store) (now : Nat)
    (files : List String) (p q : String) (m : Nat)
    (habs : fs p = FileState.absent) :
    (scanOne fs st p).status = "missing" ∧
    (scanAll fs st now files).details.length = files.length ∧
    (∀ (baselines : String → Option String) (now' : Nat) (st0 : Store),
      detectDriftFile fs baselines now' st0 p = (st0, Except.ok [])) ∧
    (fs q = FileState.unreadable m →
      pyFalsyOptStr (getBaselineHash st q) = false →
      (scanOne fs st q).status = "drift_detected") := by
  have hex : pathExists fs p = false := by simp [pathExists, habs]
  refine ⟨?_, ?_, ?_, ?_⟩
  · simp [scanOne, hex]
  · rw [show (scanAll fs st now files).details = (scanLoop fs st files).2
      from rfl, scanLoop_snd fs st files]
    exact List.length_map files (scanOne fs st)
  · intro baselines now' st0
    simp [detectDriftFile, hex]
  · intro hq hbq
    have hexq : pathExists fs q = true := by simp [pathExists, hq]
    have hcq : calculateHash fs q = none := by simp [calculateHash, hq]
    have hne : (getBaselineHash st q != calculateHash fs q) = true := by
      rcases hb : getBaselineHash st q with _ | b
      · rw [hb] at hbq
        simp [pyFalsyOptStr] at hbq
      · rw [hcq]
        simp
    by_cases hj : pyEndsWith q ".json" = true
    · simp [scanOne, hexq, hbq, hne, hj]
    · simp [scanOne, hexq, hbq, hne, hj]

theorem missing_file_status_witness :
    fsUnreadable "gone.txt" = FileState.absent ∧
    ((scanOne fsUnreadable stUnreadable "gone.txt").status = "missing" ∧
      (scanAll fsUnreadable stUnreadable 7 ["gone.txt", "cfg.json"]).details.length =
        (["gone.txt", "cfg.json"] : List String).length ∧
      (∀ (baselines : String → Option String) (now' : Nat) (st0 : Store),
        detectDriftFile fsUnreadable baselines now' st0 "gone.txt" =
          (st0, Except.ok [])) ∧
      (fsUnreadable "cfg.json" = FileState.unreadable 0o100600 →
        pyFalsyOptStr (getBaselineHash stUnreadable "cfg.json") = false →
        (scanOne fsUnreadable stUnreadable "cfg.json").status =
          "drift_detected")) :=
  ⟨rfl, missing_file_status fsUnreadable stUnreadable 7 ["gone.txt", "cfg.json"]
    "gone.txt" "cfg.json" 0o100600 rfl⟩

/-- Claim C5 counterexample: the security event written by detect_drift for
a drifted openclaw.json has severity high, which is outside the documented
set of info, warning and critical. -/
theorem severity_outside_documented_set :
    ((detectDriftFile fsDrifted baselinesDrift 5 stEmpty
        "openclaw.json").1.security_events.map (fun e => e.severity)) =
      ["high"] ∧
    ¬("high" = "info" ∨ "high" = "warning" ∨ "high" = "critical") := by
  constructor
  · rfl
  · simp

/-- Claim C5 (amended): injection scanning writes severity critical and
audit persistence writes severity critical or info, both inside the
documented set; drift detection instead writes severity high or medium, so
the severities written by the core operations all lie in the set of info,
warning, critical, high and medium, not in the documented three-value
set. -/
theorem severity_values (fs : FS) (baselines : String → Option String)
    (now n : Nat) (st : Store) (p : String) (lines : List String) :
    (∀ ev, ev ∈ (detectDriftFile fs baselines now st p).1.security_events →
      ev ∈ st.security_events ∨ ev.severity = "high" ∨
        ev.severity = "medium") ∧
    (∀ ev, ev ∈ (scanLines now n st lines).2.security_events →
      ev ∈ st.security_events ∨ ev.severity = "critical") ∧
    (∀ res st', runAudit fs st now = Except.ok (res, st') →
      ∀ ev, ev ∈ st'.security_events →
        ev ∈ st.security_events ∨ ev.severity = "critical" ∨
          ev.severity = "info") := by
  refine ⟨?_, ?_, ?_⟩
  · intro ev hev
    unfold detectDriftFile at hev
    by_cases h1 : pathExists fs p = false
    · rw [if_pos h1] at hev
      exact Or.inl hev
    · rw [if_neg h1] at hev
      dsimp only at hev
      rcases hb : baselines p with _ | b
      · rw [hb] at hev
        exact Or.inl hev
      · rw [hb] at hev
        dsimp only at hev
        by_cases hbe : (b == "") = true
        · rw [if_pos hbe] at hev
          exact Or.inl hev
        · rw [if_neg hbe] at hev
          by_cases hcb : (calculateHash fs p == some b) = true
          · rw [if_pos hcb] at hev
            exact Or.inl hev
          · rw [if_neg hcb] at hev
            rcases hc : calculateHash fs p with _ | c
            · rw [hc] at hev
              exact Or.inl hev
            · rw [hc] at hev
              dsimp only at hev
              rcases List.mem_append.mp hev with h | h
              · exact Or.inl h
              · rcases List.mem_singleton.mp h with rfl
                by_cases hs : (pyIn "SOUL.md" p || pyIn "openclaw.json" p) = true
                · rw [if_pos hs]
                  exact Or.inr (Or.inl rfl)
                · rw [if_neg hs]
                  exact Or.inr (Or.inr rfl)
  · clear p
    induction lines generalizing n st with
    | nil => intro ev hev; exact Or.inl hev
    | cons line rest ih =>
      intro ev hev
      simp only [scanLines] at hev
      rcases ih (n + 1) _ ev hev with h | h
      · simp only [List.mem_append] at h
        rcases h with h | h
        · exact Or.inl h
        · obtain ⟨a, _, rfl⟩ := List.mem_map.mp h
          exact Or.inr rfl
      · exact Or.inr h
  · intro res st' hrun ev hev
    unfold runAudit at hrun
    dsimp only at hrun
    rcases hcc : auditConfigChecks fs
        (auditFileLoop fs
          { timestamp := now, checks := [], score := 100, issues := [] }
          sensitiveFiles) with e | res2
    · rw [hcc] at hrun
      simp [Except.bind] at hrun
    · rw [hcc] at hrun
      simp only [Except.bind, pure, Except.pure, Except.ok.injEq,
        Prod.mk.injEq] at hrun
      obtain ⟨rfl, rfl⟩ := hrun
      rcases List.mem_append.mp hev with h | h
      · exact Or.inl h
      · rcases List.mem_singleton.mp h with rfl
        unfold auditEvent
        by_cases hs : res.score < 70
        · rw [if_pos hs]
          exact Or.inr (Or.inl rfl)
        · rw [if_neg hs]
          exact Or.inr (Or.inr rfl)

theorem severity_values_witness :
    (∀ ev, ev ∈ (detectDriftFile fsDrifted baselinesDrift 5 stEmpty
        "openclaw.json").1.security_events →
      ev ∈ stEmpty.security_events ∨ ev.severity = "high" ∨
        ev.severity = "medium") ∧
    (∀ ev, ev ∈ (scanLines 5 1 stEmpty ["jailbreak now"]).2.security_events →
      ev ∈ stEmpty.security_events ∨ ev.severity = "critical") ∧
    (∀ res st', runAudit fsDrifted stEmpty 5 = Except.ok (res, st') →
      ∀ ev, ev ∈ st'.security_events →
        ev ∈ stEmpty.security_events ∨ ev.severity = "critical" ∨
          ev.severity = "info") :=
  severity_values fsDrifted baselinesDrift 5 1 stEmpty "openclaw.json"
    ["jailbreak now"]

/-- Claim C2, evaluated at the failing input: approve_drift inserts its new
baseline with change_type approved_change, but get_baseline_hash selects
only change_type baseline, so a scan after approval still compares against
the old fingerprint and reports the approved content as drift. -/
theorem approved_baseline_not_used_by_scan :
    (approveDrift fsScenario1 2 stScenario1 "config.json").2 =
      ApproveResult.approved "config.json" "v2" ∧
    (approveDrift fsScenario1 2 stScenario1
        "config.json").1.config_history.map (fun r => r.change_type) =
      ["baseline", "approved_change"] ∧
    getBaselineHash (approveDrift fsScenario1 2 stScenario1 "config.json").1
      "config.json" = some "v1" ∧
    calculateHash fsScenario1 "config.json" = some "v2" ∧
    (scanOne fsScenario1
      (approveDrift fsScenario1 2 stScenario1 "config.json").1
      "config.json").status = "drift_detected" :=
  ⟨rfl, rfl, rfl, rfl, rfl⟩

/-- Claim C1, evaluated at the failing input: the structural diff of the
two documents is the single expected modified entry, but
detect_json_drift selects the nonexistent metadata column of
config_history, so the scan reports the drifted config.json with an empty
changes list instead of that entry. -/
theorem json_drift_changes_empty :
    compareDicts baselineDoc currentDoc "" =
      [Change.modified "auth.enabled" (Json.bool true) (Json.bool false)] ∧
    detectJsonDrift fsScenario1 stScenario1 "config.json" =
      DriftInfo.err "no such column: metadata" ∧
    (scanOne fsScenario1 stScenario1 "config.json").status =
      "drift_detected" ∧
    (scanOne fsScenario1 stScenario1 "config.json").changes = some [] ∧
    (scanAll fsScenario1 stScenario1 9 ["config.json"]).files_with_drift = 1 := by
  refine ⟨?_, rfl, rfl, rfl, rfl⟩
  simp [baselineDoc, currentDoc, compareDicts, compareLoop1, compareLoop2,
    entryFor, lookupJ, jeq, joinPath]

theorem auditFileLoop_spec (fs : FS) (ps : List String) :
    ∀ res : AuditResults,
      (auditFileLoop fs res ps).score =
        res.score -
          10 * ((ps.filter (fun p => fileModeFails fs p)).length : Int) ∧
      (auditFileLoop fs res ps).issues =
        res.issues ++ (ps.filter (fun p => fileModeFails fs p)).map
          (fun p => "Insecure permissions on " ++ p) := by
  induction ps with
  | nil => intro res; simp [auditFileLoop]
  | cons p rest ih =>
    intro res
    rcases hm : stMode fs p with _ | m
    · have hff : fileModeFails fs p = false := by simp [fileModeFails, hm]
      simp only [auditFileLoop, hm, List.filter_cons, hff]
      simpa using ih res
    · by_cases hf : (modeLast3 m == "600") = true
      · have hff : fileModeFails fs p = false := by
          simp [fileModeFails, hm, hf]
        simp only [auditFileLoop, hm, hf, if_true, List.filter_cons, hff]
        simpa using ih _
      · simp only [Bool.not_eq_true] at hf
        have hff : fileModeFails fs p = true := by
          simp [fileModeFails, hm, hf]
        have hcheck :
            ((if (modeLast3 m == "600") = true then "pass" else "fail")
              == "fail") = true := by
          simp [hf]
        simp only [auditFileLoop, hm, hcheck, if_true, List.filter_cons, hff]
        constructor
        · rw [(ih _).1]
          dsimp only
          simp only [List.length_cons]
          push_cast
          ring
        · rw [(ih _).2]
          dsimp only
          simp

theorem auditConfigChecks_spec (fs : FS) (res res' : AuditResults)
    (h : auditConfigChecks fs res = Except.ok res') :
    res'.score = res.score -
        (if flagFails fs "authentication" then 20 else 0) -
        (if flagFails fs "prompt_injection_defense" then 20 else 0) ∧
    res'.issues = (res.issues ++
      (if flagFails fs "authentication" then ["Authentication is disabled"]
       else [])) ++
      (if flagFails fs "prompt_injection_defense" then
        ["Prompt injection defense is disabled"] else []) := by
  unfold auditConfigChecks at h
  rcases hfs : fs "openclaw.json" with _ | m | i
  · rw [hfs] at h
    simp only [Except.ok.injEq] at h
    subst h
    simp [flagFails, hfs]
  · rw [hfs] at h
    simp at h
  · rw [hfs] at h
    dsimp only at h
    rcases hj : i.json with _ | config
    · rw [hj] at h
      simp at h
    · rw [hj] at h
      dsimp only at h
      rcases hs : pyGet config "security" (Json.obj []) with e | s
      · rw [hs] at h
        simp [Bind.bind, Except.bind] at h
      · rw [hs] at h
        simp only [Bind.bind, Except.bind] at h
        rcases ha : pyGet s "authentication" (Json.obj []) with e | auth
        · rw [ha] at h
          simp at h
        · rw [ha] at h
          simp only at h
          rcases hav : pyGet auth "enabled" (Json.bool false) with e | av
          · rw [hav] at h
            simp at h
          · rw [hav] at h
            simp only at h
            rcases hd : pyGet s "prompt_injection_defense" (Json.obj [])
              with e | defense
            · rw [hd] at h
              simp at h
            · rw [hd] at h
              simp only at h
              rcases hdv : pyGet defense "enabled" (Json.bool false)
                with e | dv
              · rw [hdv] at h
                simp at h
              · rw [hdv] at h
                simp only [pure, Except.pure, Except.ok.injEq] at h
                subst h
                have hauth : flagFails fs "authentication" = !pyTruthy av := by
                  simp [flagFails, hfs, hj, hs, ha, hav, Bind.bind,
                    Except.bind]
                have hdef : flagFails fs "prompt_injection_defense"
                    = !pyTruthy dv := by
                  simp [flagFails, hfs, hj, hs, hd, hdv, Bind.bind,
                    Except.bind]
                rw [hauth, hdef]
                by_cases hat : pyTruthy av = true
                · by_cases hdt : pyTruthy dv = true
                  · simp [hat, hdt]
                  · simp only [Bool.not_eq_true] at hdt
                    simp [hat, hdt]
                · simp only [Bool.not_eq_true] at hat
                  by_cases hdt : pyTruthy dv = true
                  · simp [hat, hdt]
                  · simp only [Bool.not_eq_true] at hdt
                    simp [hat, hdt]

/-- Claim C6: run_audit starts from 100 and deducts 10 per sensitive file
whose permission digits are not exactly 600, 20 when the authentication
flag of the configuration document is disabled or absent, and 20 when the
injection-defense flag is disabled or absent; with every check passing the
score is exactly 100 with no issues, and the score formula is
non-increasing as more checks fail. -/
theorem run_audit_score (fs : FS) (st : Store) (now : Nat)
    (res : AuditResults) (st' : Store)
    (h : runAudit fs st now = Except.ok (res, st')) :
    res.score = scoreFormula (fileFailCount fs)
      (flagFails fs "authentication")
      (flagFails fs "prompt_injection_defense") ∧
    (fileFailCount fs = 0 ∧ flagFails fs "authentication" = false ∧
      flagFails fs "prompt_injection_defense" = false →
      res.score = 100 ∧ res.issues = []) ∧
    (∀ (n1 n2 : Nat) (a1 a2 i1 i2 : Bool), n1 ≤ n2 →
      (a1 = true → a2 = true) → (i1 = true → i2 = true) →
      scoreFormula n2 a2 i2 ≤ scoreFormula n1 a1 i1) := by
  unfold runAudit at h
  dsimp only at h
  rcases hcc : auditConfigChecks fs
      (auditFileLoop fs
        { timestamp := now, checks := [], score := 100, issues := [] }
        sensitiveFiles) with e | res2
  · rw [hcc] at h
    simp [Bind.bind, Except.bind] at h
  · rw [hcc] at h
    simp only [Except.bind, pure, Except.pure, Except.ok.injEq,
      Prod.mk.injEq] at h
    obtain ⟨rfl, rfl⟩ := h
    obtain ⟨hs1, hi1⟩ := auditFileLoop_spec fs sensitiveFiles
      { timestamp := now, checks := [], score := 100, issues := [] }
    obtain ⟨hs2, hi2⟩ := auditConfigChecks_spec fs _ _ hcc
    refine ⟨?_, ?_, ?_⟩
    · rw [hs2, hs1]
      simp only [scoreFormula, fileFailCount]
    · rintro ⟨hff, hfa, hfd⟩
      constructor
      · rw [hs2, hs1, hfa, hfd]
        simp only [fileFailCount] at hff
        rw [hff]
        simp
      · rw [hi2, hi1, hfa, hfd]
        have : (sensitiveFiles.filter (fun p => fileModeFails fs p)) = [] := by
          rw [← List.length_eq_zero]
          exact hff
        rw [this]
        simp
    · intro n1 n2 a1 a2 i1 i2 hn ha hi
      simp only [scoreFormula]
      rcases a1 <;> rcases a2 <;> rcases i1 <;> rcases i2 <;>
        simp_all <;> omega

theorem run_audit_score_witness :
    runAudit fsEmpty stEmpty 0 = Except.ok (auditResEmpty, stAfterAudit) ∧
    (auditResEmpty.score = scoreFormula (fileFailCount fsEmpty)
        (flagFails fsEmpty "authentication")
        (flagFails fsEmpty "prompt_injection_defense") ∧
      (fileFailCount fsEmpty = 0 ∧
        flagFails fsEmpty "authentication" = false ∧
        flagFails fsEmpty "prompt_injection_defense" = false →
        auditResEmpty.score = 100 ∧ auditResEmpty.issues = []) ∧
      (∀ (n1 n2 : Nat) (a1 a2 i1 i2 : Bool), n1 ≤ n2 →
        (a1 = true → a2 = true) → (i1 = true → i2 = true) →
        scoreFormula n2 a2 i2 ≤ scoreFormula n1 a1 i1)) :=
  ⟨rfl, run_audit_score fsEmpty stEmpty 0 auditResEmpty stAfterAudit rfl⟩

theorem beq_symm_gen {α : Type} [BEq α] [LawfulBEq α] (a b : α) :
    (a == b) = (b == a) := by
  by_cases h : a = b
  · subst h
    rfl
  · rw [beq_eq_false_iff_ne.mpr h, beq_eq_false_iff_ne.mpr
      (fun hh => h hh.symm)]

theorem jeq_symm_aux : ∀ N : Nat,
    (∀ a b : Json, sizeOf a + sizeOf b ≤ N → jeq a b = jeq b a) ∧
    (∀ xs ys : List Json, sizeOf xs + sizeOf ys ≤ N →
      jeqList xs ys = jeqList ys xs) := by
  intro N
  induction N using Nat.strong_induction_on with
  | _ N ih =>
    constructor
    · intro a b hN
      cases a <;> cases b <;> simp only [jeq] <;>
        first
        | rfl
        | exact beq_symm_gen _ _
        | exact Bool.and_comm _ _
        | skip
      rename_i xs ys
      have hlt : sizeOf xs + sizeOf ys < N := by
        simp at hN
        omega
      exact (ih _ hlt).2 xs ys le_rfl
    · intro xs ys hN
      cases xs with
      | nil => cases ys <;> simp [jeqList]
      | cons x xs' =>
        cases ys with
        | nil => simp [jeqList]
        | cons y ys' =>
          simp only [jeqList]
          have hlt1 : sizeOf x + sizeOf y < N := by
            simp at hN
            omega
          have hlt2 : sizeOf xs' + sizeOf ys' < N := by
            simp at hN
            omega
          rw [(ih _ hlt1).1 x y le_rfl, (ih _ hlt2).2 xs' ys' le_rfl]

theorem jeq_symm (a b : Json) : jeq a b = jeq b a :=
  (jeq_symm_aux (sizeOf a + sizeOf b)).1 a b le_rfl

theorem swap_swap (c : Change) : swapChange (swapChange c) = c := by
  cases c <;> rfl

theorem changePath_swap (c : Change) : changePath (swapChange c) = changePath c := by
  cases c <;> rfl

theorem bothObj_eq_true (v w : Json) :
    bothObj v w = true ↔ ∃ bv cv, v = Json.obj bv ∧ w = Json.obj cv := by
  cases v <;> cases w <;> simp [bothObj]

theorem bothObj_symm (v w : Json) : bothObj v w = bothObj w v := by
  cases v <;> cases w <;> rfl

theorem lookupJ_mem : ∀ (A : List (String × Json)) (k : String) (v : Json),
    lookupJ k A = some v → (k, v) ∈ A := by
  intro A
  induction A with
  | nil => intro k v h; simp [lookupJ] at h
  | cons q rest ih =>
    intro k v h
    obtain ⟨k', v'⟩ := q
    by_cases hk : k' = k
    · subst hk
      simp [lookupJ] at h
      subst h
      exact List.mem_cons_self _ _
    · simp only [lookupJ, if_neg hk] at h
      exact List.mem_cons_of_mem _ (ih k v h)

theorem nodup_lookupJ : ∀ (A : List (String × Json)) (k : String) (v : Json),
    nodupKeys A = true → (k, v) ∈ A → lookupJ k A = some v := by
  intro A
  induction A with
  | nil => intro k v _ h; simp at h
  | cons q rest ih =>
    intro k v hn hm
    obtain ⟨k', v'⟩ := q
    simp only [nodupKeys, Bool.and_eq_true] at hn
    obtain ⟨hnotin, hn'⟩ := hn
    rcases List.mem_cons.mp hm with heq | hm'
    · rw [Prod.mk.injEq] at heq
      obtain ⟨rfl, rfl⟩ := heq
      simp [lookupJ]
    · by_cases hk : k' = k
      · subst hk
        exfalso
        have : rest.any (fun q => q.1 == k') = true :=
          List.any_eq_true.mpr ⟨(k', v), hm', by simp⟩
        simp [this] at hnotin
      · simp only [lookupJ, if_neg hk]
        exact ih k v hn' hm'

theorem wfFields_mem : ∀ (A : List (String × Json)) (k : String) (v : Json),
    wfFields A = true → (k, v) ∈ A → wfJson v = true := by
  intro A
  induction A with
  | nil => intro k v _ h; simp at h
  | cons q rest ih =>
    intro k v hw hm
    obtain ⟨k', v'⟩ := q
    simp only [wfFields, Bool.and_eq_true] at hw
    obtain ⟨hv', hw'⟩ := hw
    rcases List.mem_cons.mp hm with heq | hm'
    · rw [Prod.mk.injEq] at heq
      obtain ⟨rfl, rfl⟩ := heq
      exact hv'
    · exact ih k v hw' hm'

theorem wfJson_obj (A : List (String × Json)) :
    wfJson (Json.obj A) = (nodupKeys A && wfFields A) := by
  simp [wfJson]

theorem compareDicts_def (A B : List (String × Json)) (p : String) :
    compareDicts A B p = compareLoop1 A B p ++ compareLoop2 A B p := by
  unfold compareDicts
  rfl

theorem compareLoop2_mem (A : List (String × Json)) (p : String) (c : Change) :
    ∀ B, c ∈ compareLoop2 A B p ↔
      ∃ k w, (k, w) ∈ B ∧ lookupJ k A = none ∧
        c = Change.added (joinPath p k) w := by
  intro B
  induction B with
  | nil => simp [compareLoop2]
  | cons q rest ih =>
    obtain ⟨k, w⟩ := q
    simp only [compareLoop2]
    constructor
    · intro hc
      rcases List.mem_append.mp hc with h1 | h2
      · by_cases hk : (lookupJ k A).isNone
        · rw [if_pos hk] at h1
          rcases List.mem_singleton.mp h1 with rfl
          exact ⟨k, w, List.mem_cons_self _ _,
            Option.isNone_iff_eq_none.mp hk, rfl⟩
        · rw [if_neg hk] at h1
          simp at h1
      · obtain ⟨k', w', hm, hl, rfl⟩ := ih.mp h2
        exact ⟨k', w', List.mem_cons_of_mem _ hm, hl, rfl⟩
    · rintro ⟨k', w', hm, hl, rfl⟩
      rcases List.mem_cons.mp hm with heq | hm'
      · rw [Prod.mk.injEq] at heq
        obtain ⟨rfl, rfl⟩ := heq
        refine List.mem_append.mpr (Or.inl ?_)
        rw [if_pos (Option.isNone_iff_eq_none.mpr hl)]
        exact List.mem_singleton.mpr rfl
      · exact List.mem_append.mpr (Or.inr (ih.mpr ⟨k', w', hm', hl, rfl⟩))

theorem compareLoop1_mem (B : List (String × Json)) (p : String) (c : Change) :
    ∀ A, c ∈ compareLoop1 A B p ↔
      ∃ k v, (k, v) ∈ A ∧ c ∈ entryFor B p k v := by
  intro A
  induction A with
  | nil => simp [compareLoop1]
  | cons q rest ih =>
    obtain ⟨k, v⟩ := q
    simp only [compareLoop1]
    constructor
    · intro hc
      rcases List.mem_append.mp hc with h1 | h2
      · exact ⟨k, v, List.mem_cons_self _ _, h1⟩
      · obtain ⟨k', v', hm, he⟩ := ih.mp h2
        exact ⟨k', v', List.mem_cons_of_mem _ hm, he⟩
    · rintro ⟨k', v', hm, he⟩
      rcases List.mem_cons.mp hm with heq | hm'
      · rw [Prod.mk.injEq] at heq
        obtain ⟨rfl, rfl⟩ := heq
        exact List.mem_append.mpr (Or.inl he)
      · exact List.mem_append.mpr (Or.inr (ih.mpr ⟨k', v', hm', he⟩))

theorem entryFor_none (B : List (String × Json)) (p k : String) (v : Json)
    (hB : lookupJ k B = none) :
    entryFor B p k v = [Change.removed (joinPath p k) v] := by
  unfold entryFor
  split
  · rfl
  · rename_i w heq
    rw [hB] at heq
    exact Option.noConfusion heq

theorem entryFor_objs (B : List (String × Json)) (p k : String)
    (bv cv : List (String × Json)) (hB : lookupJ k B = some (Json.obj cv)) :
    entryFor B p k (Json.obj bv) = compareDicts bv cv (joinPath p k) := by
  unfold entryFor
  split
  · rename_i heq
    rw [hB] at heq
    exact Option.noConfusion heq
  · rename_i w heq
    rw [hB] at heq
    injection heq with heq'
    subst heq'
    rfl

theorem entryFor_default (B : List (String × Json)) (p k : String)
    (v w : Json) (hB : lookupJ k B = some w) (hbo : bothObj v w = false) :
    entryFor B p k v =
      if jeq v w = true then [] else
        [Change.modified (joinPath p k) v w] := by
  unfold entryFor
  split
  · rename_i heq
    rw [hB] at heq
    exact Option.noConfusion heq
  · rename_i w' heq
    rw [hB] at heq
    injection heq with heq'
    subst heq'
    cases v <;> cases w <;> simp_all [bothObj]

theorem compare_swap_forward :
    ∀ (N : Nat) (A B : List (String × Json)) (p : String) (c : Change),
      sizeOf A + sizeOf B ≤ N →
      wfJson (Json.obj A) = true → wfJson (Json.obj B) = true →
      c ∈ compareDicts A B p → swapChange c ∈ compareDicts B A p := by
  intro N
  induction N using Nat.strong_induction_on with
  | _ N ih =>
    intro A B p c hN hwA hwB hc
    rw [wfJson_obj, Bool.and_eq_true] at hwA hwB
    obtain ⟨hnA, hfA⟩ := hwA
    obtain ⟨hnB, hfB⟩ := hwB
    rw [compareDicts_def] at hc ⊢
    rcases List.mem_append.mp hc with h1 | h2
    · obtain ⟨k, v, hkv, hce⟩ := (compareLoop1_mem B p c A).mp h1
      rcases hB : lookupJ k B with _ | w
      · rw [entryFor_none B p k v hB] at hce
        rcases List.mem_singleton.mp hce with rfl
        refine List.mem_append.mpr (Or.inr ?_)
        exact (compareLoop2_mem B p _ A).mpr ⟨k, v, hkv, hB, rfl⟩
      · have hkwB : (k, w) ∈ B := lookupJ_mem B k w hB
        have hkA : lookupJ k A = some v := nodup_lookupJ A k v hnA hkv
        by_cases hbo : bothObj v w = true
        · obtain ⟨bv, cv, rfl, rfl⟩ := (bothObj_eq_true v w).mp hbo
          rw [entryFor_objs B p k bv cv hB] at hce
          have hwbv : wfJson (Json.obj bv) = true := wfFields_mem A k _ hfA hkv
          have hwcv : wfJson (Json.obj cv) = true := wfFields_mem B k _ hfB hkwB
          have hs1 : sizeOf (Json.obj bv) < sizeOf A := sizeOf_mem_pair A k _ hkv
          have hs2 : sizeOf (Json.obj cv) < sizeOf B := sizeOf_lookupJ B k _ hB
          have hlt : sizeOf bv + sizeOf cv < N := by
            simp at hs1 hs2
            omega
          have hswap := ih _ hlt bv cv (joinPath p k) c le_rfl hwbv hwcv hce
          refine List.mem_append.mpr (Or.inl ?_)
          refine (compareLoop1_mem A p _ B).mpr ⟨k, Json.obj cv, hkwB, ?_⟩
          rw [entryFor_objs A p k cv bv hkA]
          exact hswap
        · simp only [Bool.not_eq_true] at hbo
          by_cases hjq : jeq v w = true
          · rw [entryFor_default B p k v w hB hbo, if_pos hjq] at hce
            simp at hce
          · simp only [Bool.not_eq_true] at hjq
            rw [entryFor_default B p k v w hB hbo,
              if_neg (by simp [hjq])] at hce
            rcases List.mem_singleton.mp hce with rfl
            refine List.mem_append.mpr (Or.inl ?_)
            refine (compareLoop1_mem A p _ B).mpr ⟨k, w, hkwB, ?_⟩
            have hbo' : bothObj w v = false := by
              rw [bothObj_symm]
              exact hbo
            have hj' : jeq w v = false := by
              rw [jeq_symm]
              exact hjq
            rw [entryFor_default A p k w v hkA hbo', if_neg (by simp [hj'])]
            exact List.mem_singleton.mpr rfl
    · obtain ⟨k, w, hkwB, hkA, rfl⟩ := (compareLoop2_mem A p c B).mp h2
      refine List.mem_append.mpr (Or.inl ?_)
      refine (compareLoop1_mem A p _ B).mpr ⟨k, w, hkwB, ?_⟩
      rw [entryFor_none A p k w hkA]
      exact List.mem_singleton.mpr rfl

/-- Claim C8: for structured documents (association lists with distinct
keys at every level, as every parsed Python dictionary is) the structural
diff is symmetric in intent: an entry lies in diff(A, B) exactly when its
mirror (added and removed exchanged, modified with old and new values
swapped, same path) lies in diff(B, A), and the two diffs mention the same
set of dotted paths. -/
theorem compare_dicts_symmetric (A B : List (String × Json)) (p : String)
    (hA : wfJson (Json.obj A) = true) (hB : wfJson (Json.obj B) = true) :
    (∀ c, c ∈ compareDicts A B p ↔ swapChange c ∈ compareDicts B A p) ∧
    (∀ q, (∃ c, c ∈ compareDicts A B p ∧ changePath c = q) ↔
      (∃ c, c ∈ compareDicts B A p ∧ changePath c = q)) := by
  have hiff : ∀ c, c ∈ compareDicts A B p ↔
      swapChange c ∈ compareDicts B A p := by
    intro c
    constructor
    · exact compare_swap_forward (sizeOf A + sizeOf B) A B p c le_rfl hA hB
    · intro h
      have := compare_swap_forward (sizeOf B + sizeOf A) B A p
        (swapChange c) le_rfl hB hA h
      rwa [swap_swap] at this
  refine ⟨hiff, ?_⟩
  intro q
  constructor
  · rintro ⟨c, hc, rfl⟩
    exact ⟨swapChange c, (hiff c).mp hc, changePath_swap c⟩
  · rintro ⟨c, hc, rfl⟩
    refine ⟨swapChange c, ?_, changePath_swap c⟩
    refine (hiff (swapChange c)).mpr ?_
    rwa [swap_swap]

theorem compare_dicts_symmetric_witness :
    wfJson (Json.obj [("x", Json.bool true)]) = true ∧
    wfJson (Json.obj ([] : List (String × Json))) = true ∧
    ((∀ c, c ∈ compareDicts [("x", Json.bool true)] [] "" ↔
        swapChange c ∈ compareDicts [] [("x", Json.bool true)] "") ∧
      (∀ q, (∃ c, c ∈ compareDicts [("x", Json.bool true)] [] "" ∧
          changePath c = q) ↔
        (∃ c, c ∈ compareDicts [] [("x", Json.bool true)] "" ∧
          changePath c = q))) := by
  have h1 : wfJson (Json.obj [("x", Json.bool true)]) = true := by
    simp [wfJson, nodupKeys, wfFields]
  have h2 : wfJson (Json.obj ([] : List (String × Json))) = true := by
    simp [wfJson, nodupKeys, wfFields]
  exact ⟨h1, h2, compare_dicts_symmetric _ _ "" h1 h2⟩

end ShieldClaw
